import Mathlib

/-!
# Verification of the MCP-Tool-Demo password server and MCP server manager

Shallow embedding of the two non-trivial components of the repository:

* `src/Custom/password_server.py` — a password-manager tool server storing a
  JSON map from service names to entries, with the password field encrypted by
  a Fernet symmetric key persisted in a local key file.
* `src/Client/mcp_connectors.py` — `MCPServerManager`, a registry of MCP
  subprocess server configurations with a permanent "filesystem" default.

Python dictionaries are embedded as association lists with python-dict
semantics: assignment replaces the value of an existing key in place and
appends a fresh key at the end; `pop` removes the (unique) binding of a key;
iteration follows insertion order.  File state (the key file and the storage
file) is threaded explicitly.  Sources of nondeterminism (fresh Fernet keys,
`datetime.now()`, `secrets` randomness) are passed as explicit oracle
parameters, and the theorems quantify over them.
-/

namespace MCPDemo

/-- Lookup `d[k]` of a python dict embedded as an association list:
the first binding of `k`, if any. -/
def dictLookup {α : Type} (d : List (String × α)) (k : String) : Option α :=
  match d with
  | [] => none
  | (k', v) :: t => if k' = k then some v else dictLookup t k

/-- Assignment `d[k] = v` of a python dict: replace the binding of an
existing key in place, otherwise append the new binding at the end. -/
def dictInsert {α : Type} (d : List (String × α)) (k : String) (v : α) :
    List (String × α) :=
  match d with
  | [] => [(k, v)]
  | (k', v') :: t => if k' = k then (k, v) :: t else (k', v') :: dictInsert t k v

/-- Removal `d.pop(k)` / `del d[k]` of a python dict: remove the first binding of `k`. -/
def dictPop {α : Type} (d : List (String × α)) (k : String) : List (String × α) :=
  match d with
  | [] => []
  | (k', v') :: t => if k' = k then t else (k', v') :: dictPop t k

/-- Mutate the value stored under key `k` in place (`d[k].field = ...`),
leaving the dict unchanged when `k` is absent. -/
def dictModify {α : Type} (d : List (String × α)) (k : String) (f : α → α) :
    List (String × α) :=
  match d with
  | [] => []
  | (k', v') :: t => if k' = k then (k', f v') :: t else (k', v') :: dictModify t k f

theorem dictLookup_dictInsert_self {α : Type} (d : List (String × α)) (k : String) (v : α) :
    dictLookup (dictInsert d k v) k = some v := by
  induction d with
  | nil => simp [dictInsert, dictLookup]
  | cons hd t ih =>
    obtain ⟨k', v'⟩ := hd
    by_cases h : k' = k
    · simp [dictInsert, dictLookup, h]
    · simp [dictInsert, dictLookup, h, ih]

theorem dictLookup_dictInsert_ne {α : Type} (d : List (String × α)) (k k' : String) (v : α)
    (h : k' ≠ k) : dictLookup (dictInsert d k v) k' = dictLookup d k' := by
  induction d with
  | nil => simp [dictInsert, dictLookup, Ne.symm h]
  | cons hd t ih =>
    obtain ⟨k₀, v₀⟩ := hd
    by_cases h0 : k₀ = k
    · subst h0
      simp [dictInsert, dictLookup, Ne.symm h]
    · simp only [dictInsert, if_neg h0, dictLookup]
      by_cases h1 : k₀ = k'
      · simp [h1]
      · simp [h1, ih]

theorem dictLookup_dictPop_ne {α : Type} (d : List (String × α)) (k k' : String)
    (h : k' ≠ k) : dictLookup (dictPop d k) k' = dictLookup d k' := by
  induction d with
  | nil => simp [dictPop]
  | cons hd t ih =>
    obtain ⟨k₀, v₀⟩ := hd
    by_cases h0 : k₀ = k
    · subst h0
      simp [dictPop, dictLookup, Ne.symm h]
    · simp only [dictPop, if_neg h0, dictLookup]
      by_cases h1 : k₀ = k'
      · simp [h1]
      · simp [h1, ih]

theorem dictLookup_eq_none_of_not_mem_keys {α : Type} (d : List (String × α)) (k : String)
    (h : k ∉ d.map Prod.fst) : dictLookup d k = none := by
  induction d with
  | nil => rfl
  | cons hd t ih =>
    obtain ⟨k₀, v₀⟩ := hd
    simp only [List.map_cons, List.mem_cons] at h
    push_neg at h
    simp [dictLookup, Ne.symm h.1, ih h.2]

theorem dictLookup_dictPop_self {α : Type} (d : List (String × α)) (k : String)
    (h : (d.map Prod.fst).Nodup) : dictLookup (dictPop d k) k = none := by
  induction d with
  | nil => rfl
  | cons hd t ih =>
    obtain ⟨k₀, v₀⟩ := hd
    simp only [List.map_cons, List.nodup_cons] at h
    by_cases h0 : k₀ = k
    · subst h0
      simpa [dictPop] using dictLookup_eq_none_of_not_mem_keys t k₀ h.1
    · simp [dictPop, dictLookup, h0, ih h.2]

theorem mem_keys_dictInsert {α : Type} (d : List (String × α)) (k k' : String) (v : α)
    (h : k' ∈ (dictInsert d k v).map Prod.fst) : k' ∈ d.map Prod.fst ∨ k' = k := by
  induction d with
  | nil => simpa [dictInsert] using h
  | cons hd t ih =>
    obtain ⟨k₀, v₀⟩ := hd
    by_cases h0 : k₀ = k
    · subst h0
      rcases (by simpa [dictInsert] using h : k' = k₀ ∨ k' ∈ t.map Prod.fst) with h' | h'
      · exact Or.inr h'
      · exact Or.inl (by simp [h'])
    · simp only [dictInsert, if_neg h0, List.map_cons, List.mem_cons] at h ⊢
      rcases h with h | h
      · exact Or.inl (Or.inl h)
      · rcases ih h with h' | h'
        · exact Or.inl (Or.inr h')
        · exact Or.inr h'

theorem nodup_keys_dictInsert {α : Type} (d : List (String × α)) (k : String) (v : α)
    (h : (d.map Prod.fst).Nodup) : ((dictInsert d k v).map Prod.fst).Nodup := by
  induction d with
  | nil => simp [dictInsert]
  | cons hd t ih =>
    obtain ⟨k₀, v₀⟩ := hd
    simp only [List.map_cons, List.nodup_cons] at h
    by_cases h0 : k₀ = k
    · subst h0
      simpa [dictInsert] using h
    · simp only [dictInsert, if_neg h0, List.map_cons, List.nodup_cons]
      refine ⟨fun hmem => ?_, ih h.2⟩
      rcases mem_keys_dictInsert t k k₀ v hmem with h' | h'
      · exact h.1 h'
      · exact h0 h'

theorem dictLookup_dictModify {α : Type} (d : List (String × α)) (k k' : String) (f : α → α) :
    dictLookup (dictModify d k f) k' =
      if k' = k then (dictLookup d k).map f else dictLookup d k' := by
  induction d with
  | nil => by_cases h : k' = k <;> simp [dictModify, dictLookup, h]
  | cons hd t ih =>
    obtain ⟨k₀, v₀⟩ := hd
    by_cases h0 : k₀ = k
    · subst h0
      by_cases h1 : k' = k₀
      · simp [dictModify, dictLookup, h1]
      · simp [dictModify, dictLookup, h1, Ne.symm h1]
    · simp only [dictModify, if_neg h0, dictLookup]
      by_cases h1 : k₀ = k'
      · subst h1
        simp [dictLookup, h0]
      · simp [h1, ih]

theorem dictLookup_append {α : Type} (d e : List (String × α)) (k : String) :
    dictLookup (d ++ e) k = (dictLookup d k).orElse (fun _ => dictLookup e k) := by
  induction d with
  | nil => simp [dictLookup]
  | cons hd t ih =>
    obtain ⟨k₀, v₀⟩ := hd
    by_cases h0 : k₀ = k <;> simp [dictLookup, h0, ih]

namespace PasswordServer

/-- An opaque Fernet key, as produced by `Fernet.generate_key()`. -/
abbrev Key := Nat

/-- Model of a ciphertext produced by the external `cryptography.fernet`
library: an opaque token recording the key it was produced under and the
plaintext it carries; by the Fernet contract, decryption under the
same key recovers the plaintext and decryption under any other key raises
`InvalidToken`.  The base64 encoding applied by `encrypt_password` and
undone by `decrypt_password` is an exact bijection between token bytes and
their base64 text, so tokens are carried directly. -/
structure FernetToken where
  tokKey : Key
  payload : String
deriving DecidableEq, Repr

/-- Model of `Fernet(key).encrypt(msg)` (external library). -/
def fernetEncrypt (k : Key) (msg : String) : FernetToken := ⟨k, msg⟩

/-- Model of `Fernet(key).decrypt(token)` (external library): succeeds exactly
under the key the token was produced with. -/
def fernetDecrypt (k : Key) (t : FernetToken) : Option String :=
  if t.tokKey = k then some t.payload else none

/-- One entry of the storage JSON, as written by `save_password`
(`password_server.py` lines 310-317). -/
structure PasswordEntry where
  username : String
  encrypted_password : FernetToken
  url : String
  notes : String
  created_at : String
  updated_at : String
deriving DecidableEq, Repr

/-- The parsed contents of `~/.mcp_passwords.json`: a python dict from
service name to entry. -/
abbrev Store := List (String × PasswordEntry)

/-- The file state the server reads and writes: the key file
`~/.mcp_password_key` (`none` = absent) and the storage file
`~/.mcp_passwords.json` (`none` = absent). -/
structure ServerState where
  keyFile : Option Key
  storage : Option Store
deriving DecidableEq, Repr

/-- Embeds `get_or_create_key` (lines 38-47): return the key file's contents when
it exists, otherwise write a freshly generated key (the `fresh` oracle,
standing for `Fernet.generate_key()`) and return it.  The result pairs the
returned key with the key file's new state. -/
def get_or_create_key (keyFile : Option Key) (fresh : Key) : Key × Option Key :=
  match keyFile with
  | some k => (k, some k)
  | none => (fresh, some fresh)

/-- Embeds `encrypt_password` (lines 50-55): fetch/create the key, Fernet-encrypt
the utf-8 password, base64 the token. -/
def encrypt_password (keyFile : Option Key) (fresh : Key) (password : String) :
    FernetToken × Option Key :=
  let kk := get_or_create_key keyFile fresh
  (fernetEncrypt kk.1 password, kk.2)

/-- Embeds `decrypt_password` (lines 58-64): fetch/create the key, un-base64 and
Fernet-decrypt; `none` models the `InvalidToken` exception. -/
def decrypt_password (keyFile : Option Key) (fresh : Key) (enc : FernetToken) :
    Option String × Option Key :=
  let kk := get_or_create_key keyFile fresh
  (fernetDecrypt kk.1 enc, kk.2)

/-- Embeds `load_passwords` (lines 67-76): missing (or unparseable) storage file
yields the empty dict. -/
def load_passwords (storage : Option Store) : Store := storage.getD []

/-- Joins the available service names, as `', '.join(...)` does. -/
def joinServices (names : List String) : String := String.intercalate ", " names

/-- The `get_password` not-found message (lines 346-354). -/
def no_password_found_msg (service : String) (passwords : Store) : String :=
  "❌ No password found for service '" ++ service ++ "'\n\n" ++
    (if passwords.map Prod.fst ≠ [] then
      "📋 Available services: " ++ joinServices (passwords.map Prod.fst) ++ "\n" ++
        "💡 Use 'list_passwords' to see all entries."
    else
      "💡 No passwords saved yet. Use 'save_password' to add one.")

/-- The `get_password` success message (lines 362-370). -/
def password_retrieved_msg (service : String) (entry : PasswordEntry)
    (decrypted : String) : String :=
  "🔓 Password retrieved for " ++ service ++ ":\n\n" ++
    "👤 Username: " ++ entry.username ++ "\n" ++
    "🔑 Password: " ++ decrypted ++ "\n" ++
    (if entry.url ≠ "" then "🌐 URL: " ++ entry.url ++ "\n" else "") ++
    (if entry.notes ≠ "" then "📝 Notes: " ++ entry.notes ++ "\n" else "") ++
    "📅 Updated: " ++ entry.updated_at ++ "\n" ++
    "\n⚠️ Handle this password securely!"

/-- The `get_password` decryption-failure message (lines 374-377); the
interpolated `str(e)` is empty for `InvalidToken`. -/
def decrypt_failed_msg (service : String) : String :=
  "❌ Failed to decrypt password for '" ++ service ++ "': \n" ++
    "💡 The password may be corrupted or encrypted with a different key."

/-- The `save_password` success message (lines 323-332). -/
def password_saved_msg (service username url notes now : String) : String :=
  "✅ Password saved successfully!\n\n" ++
    "🏷️ Service: " ++ service ++ "\n" ++
    "👤 Username: " ++ username ++ "\n" ++
    "🔒 Encryption: Fernet (AES 128)\n" ++
    (if url ≠ "" then "🌐 URL: " ++ url ++ "\n" else "") ++
    (if notes ≠ "" then "📝 Notes: " ++ notes ++ "\n" else "") ++
    "📅 Saved: " ++ now ++ "\n" ++
    "\n💡 Use 'get_password' with service='" ++ service ++ "' to retrieve it later."

/-- The shorter not-found message used by `delete_password` (lines 418-423)
and `update_password` (lines 443-448). -/
def not_found_short_msg (service : String) (passwords : Store) : String :=
  "❌ No password found for service '" ++ service ++ "'\n\n" ++
    (if passwords.map Prod.fst ≠ [] then
      "📋 Available services: " ++ joinServices (passwords.map Prod.fst)
    else "")

/-- The `delete_password` success message (lines 429-433). -/
def password_deleted_msg (service : String) (deleted : PasswordEntry) : String :=
  "🗑️ Password deleted successfully!\n\n" ++
    "🏷️ Service: " ++ service ++ "\n" ++
    "👤 Username: " ++ deleted.username ++ "\n" ++
    "📅 Was created: " ++ deleted.created_at ++ "\n" ++
    "\n⚠️ This action cannot be undone!"

/-- The `update_password` success message (lines 480-486). -/
def update_success_msg (service : String) (updated_fields : List String)
    (now : String) : String :=
  "✅ Password entry updated successfully!\n\n" ++
    "🏷️ Service: " ++ service ++ "\n" ++
    "🔄 Updated fields: " ++
      (if updated_fields ≠ [] then String.intercalate ", " updated_fields else "none") ++
      "\n" ++
    "📅 Updated: " ++ now ++ "\n" ++
    (if updated_fields = [] then "\n💡 No changes were made (no new values provided)." else "")

/-- The `save_password` branch of `handle_call_tool` (lines 294-338).
`fresh` is the key `Fernet.generate_key()` would produce if the key file is
absent; `now` is `datetime.now().isoformat()`; `url`/`notes` are the optional
arguments (`arguments.get(..., "")`). -/
def save_password_tool (st : ServerState) (fresh : Key) (now : String)
    (service username password : String) (url notes : Option String) :
    String × ServerState :=
  let urlv := url.getD ""
  let notesv := notes.getD ""
  let passwords := load_passwords st.storage
  let ek := encrypt_password st.keyFile fresh password
  let entry : PasswordEntry :=
    { username := username
      encrypted_password := ek.1
      url := urlv
      notes := notesv
      created_at := now
      updated_at := now }
  let passwords' := dictInsert passwords service entry
  (password_saved_msg service username urlv notesv now,
    { keyFile := ek.2, storage := some passwords' })

/-- The `get_password` branch of `handle_call_tool` (lines 340-377). -/
def get_password_tool (st : ServerState) (fresh : Key) (service : String) :
    String × ServerState :=
  let passwords := load_passwords st.storage
  match dictLookup passwords service with
  | none => (no_password_found_msg service passwords, st)
  | some entry =>
    let dk := decrypt_password st.keyFile fresh entry.encrypted_password
    match dk.1 with
    | some decrypted =>
      (password_retrieved_msg service entry decrypted, { st with keyFile := dk.2 })
    | none => (decrypt_failed_msg service, { st with keyFile := dk.2 })

/-- The `delete_password` branch of `handle_call_tool` (lines 412-435). -/
def delete_password_tool (st : ServerState) (service : String) :
    String × ServerState :=
  let passwords := load_passwords st.storage
  match dictLookup passwords service with
  | none => (not_found_short_msg service passwords, st)
  | some deleted =>
    let passwords' := dictPop passwords service
    (password_deleted_msg service deleted, { st with storage := some passwords' })

/-- Python truthiness of an optional string argument:
`"field" in arguments and arguments["field"]`. -/
def truthy (o : Option String) : Bool := o.getD "" ≠ ""

/-- The `update_password` branch of `handle_call_tool` (lines 437-492):
`username`/`password` are applied only when present and non-empty, while
`url`/`notes` are applied whenever the key is present in the arguments. -/
def update_password_tool (st : ServerState) (fresh : Key) (now : String)
    (service : String) (username password url notes : Option String) :
    String × ServerState :=
  let passwords := load_passwords st.storage
  match dictLookup passwords service with
  | none => (not_found_short_msg service passwords, st)
  | some entry0 =>
    let entry1 :=
      if truthy username then { entry0 with username := username.getD "" } else entry0
    let e2kf :=
      if truthy password then
        let ek := encrypt_password st.keyFile fresh (password.getD "")
        ({ entry1 with encrypted_password := ek.1 }, ek.2)
      else (entry1, st.keyFile)
    let entry3 := match url with
      | some v => { e2kf.1 with url := v }
      | none => e2kf.1
    let entry4 := match notes with
      | some v => { entry3 with notes := v }
      | none => entry3
    let entry5 := { entry4 with updated_at := now }
    let updated_fields :=
      (if truthy username then ["username"] else []) ++
      (if truthy password then ["password"] else []) ++
      (if url.isSome then ["url"] else []) ++
      (if notes.isSome then ["notes"] else [])
    let passwords' := dictInsert passwords service entry5
    (update_success_msg service updated_fields now,
      { keyFile := e2kf.2, storage := some passwords' })

/-- Embeds `string.ascii_lowercase`. -/
def ascii_lowercase : String := "abcdefghijklmnopqrstuvwxyz"

/-- Embeds `string.ascii_uppercase`. -/
def ascii_uppercase : String := "ABCDEFGHIJKLMNOPQRSTUVWXYZ"

/-- Embeds `string.digits`. -/
def string_digits : String := "0123456789"

/-- The symbol set of the `generate_password` branch (line 254). -/
def symbol_chars : String := "!@#$%^&*()-_=+[]\x7b\x7d|;:,.<>?"

/-- Embeds `secrets.choice(s)` driven by a numeric oracle `r`: a uniformly chosen
element of the non-empty string `s` is any `s[r % len(s)]`. -/
def secretsChoice (s : String) (r : Nat) : Char := s.data.getD (r % s.data.length) 'a'

/-- The oracle for all random draws of one `generate_password` call. -/
structure GenOracle where
  initChoice : Nat → Nat
  classChoice : Nat → Nat
  shuffleChoice : Nat → Nat

/-- The character pool built from the four include flags (lines 246-254),
concatenated in source order: lowercase, uppercase, numbers, symbols. -/
def buildChars (lo up nums syms : Bool) : String :=
  (if lo then ascii_lowercase else "") ++
    (if up then ascii_uppercase else "") ++
    (if nums then string_digits else "") ++
    (if syms then symbol_chars else "")

/-- One `if include_x and pos < length:` step of the class-coverage pass
(lines 267-278): overwrite position `pos` with a draw from the class and
advance `pos`. -/
def ensureStep (flag : Bool) (cls : String) (r : Nat) (length : Nat)
    (s : List Char × Nat) : List Char × Nat :=
  if flag ∧ s.2 < length then (s.1.set s.2 (secretsChoice cls r), s.2 + 1) else s

/-- Model of `secrets.SystemRandom().shuffle` (line 281): repeatedly draw a
random index (via oracle `r`) and move that element to the front, producing a
permutation of the input determined by the oracle.  `fuel` is the number of
remaining draws, initially the list length. -/
def drawAllFuel (r : Nat → Nat) : Nat → Nat → List Char → List Char
  | 0, _, _ => []
  | _ + 1, _, [] => []
  | fuel + 1, step, l =>
    let i := r step % l.length
    l.getD i 'a' :: drawAllFuel r fuel (step + 1) (l.eraseIdx i)

/-- Shuffle a list according to the oracle `r`. -/
def shuffleModel (r : Nat → Nat) (l : List Char) : List Char :=
  drawAllFuel r l.length 0 l

/-- The password computed by the `generate_password` branch (lines 238-282):
`none` models the "at least one character type" error return. -/
def generatePassword (length : Nat) (lo up nums syms : Bool) (o : GenOracle) :
    Option String :=
  let chars := buildChars lo up nums syms
  if chars = "" then none
  else
    let password := (List.range length).map (fun j => secretsChoice chars (o.initChoice j))
    if 2 ≤ length then
      let s1 := ensureStep lo ascii_lowercase (o.classChoice 0) length (password, 0)
      let s2 := ensureStep up ascii_uppercase (o.classChoice 1) length s1
      let s3 := ensureStep nums string_digits (o.classChoice 2) length s2
      let s4 := ensureStep syms symbol_chars (o.classChoice 3) length s3
      some ⟨shuffleModel o.shuffleChoice s4.1⟩
    else some ⟨password⟩

end PasswordServer

namespace Connectors

/-- Embeds `MCPServerConfig` (`mcp_connectors.py` lines 14-22). -/
structure MCPServerConfig where
  name : String
  command : String
  args : List String
  env : List (String × String)
  description : String
  enabled : Bool
deriving DecidableEq, Repr

/-- The manager's `self.servers` dict. -/
abbrev SDict := List (String × MCPServerConfig)

/-- One entry of the `mcpServers` mapping handed to `MCPClient.from_dict`
(lines 130-134). -/
structure SubprocessConfig where
  command : String
  args : List String
  env : List (String × String)
deriving DecidableEq, Repr

/-- The configuration dict built by `create_client_from_selection`
(line 127). -/
structure ClientConfig where
  mcpServers : List (String × SubprocessConfig)
deriving DecidableEq, Repr

/-- Embeds `MCPServerManager.__init__` / `_load_filesystem_default` (lines 28-43):
the registry starts with only the enabled filesystem server; `current_dir`
is `str(Path.cwd())`. -/
def initServers (current_dir : String) : SDict :=
  [("filesystem",
    { name := "filesystem"
      command := "npx"
      args := ["-y", "@modelcontextprotocol/server-filesystem", current_dir]
      env := []
      description := "File system operations - read, write, list files and directories"
      enabled := true })]

/-- Embeds `get_enabled_servers` (lines 49-51). -/
def get_enabled_servers (d : SDict) : SDict := d.filter (fun p => p.2.enabled)

/-- Embeds `enable_server` (lines 53-58): returns whether the server exists, and
the updated registry. -/
def enable_server (d : SDict) (n : String) : Bool × SDict :=
  if (dictLookup d n).isSome then
    (true, dictModify d n (fun c => { c with enabled := true }))
  else (false, d)

/-- Embeds `disable_server` (lines 60-65). -/
def disable_server (d : SDict) (n : String) : Bool × SDict :=
  if (dictLookup d n).isSome then
    (true, dictModify d n (fun c => { c with enabled := false }))
  else (false, d)

/-- Embeds `toggle_server` (lines 67-72): returns the new enabled state (or
`false` when the server is unknown) and the updated registry. -/
def toggle_server (d : SDict) (n : String) : Bool × SDict :=
  match dictLookup d n with
  | some c => (!c.enabled, dictModify d n (fun c => { c with enabled := !c.enabled }))
  | none => (false, d)

/-- Embeds `set_server_selections` (lines 74-78). -/
def set_server_selections (d : SDict) (sel : List (String × Bool)) : SDict :=
  sel.foldl
    (fun acc p =>
      if (dictLookup acc p.1).isSome then
        dictModify acc p.1 (fun c => { c with enabled := p.2 })
      else acc)
    d

/-- Embeds `add_custom_server` (lines 80-101): refuse an existing name, otherwise
append a fresh configuration. -/
def add_custom_server (d : SDict) (name command : String) (args : List String)
    (env : List (String × String)) (description : String) (enabled : Bool) :
    Bool × SDict :=
  if (dictLookup d name).isSome then (false, d)
  else
    (true,
      d ++ [(name,
        { name := name, command := command, args := args, env := env
          description := description, enabled := enabled })])

/-- Embeds `remove_server` (lines 103-111): the filesystem default can never be
removed. -/
def remove_server (d : SDict) (n : String) : Bool × SDict :=
  if n = "filesystem" then (false, d)
  else if (dictLookup d n).isSome then (true, dictPop d n)
  else (false, d)

/-- Embeds `update_filesystem_directories` (lines 113-116). -/
def update_filesystem_directories (d : SDict) (dirs : List String) : SDict :=
  dictModify d "filesystem"
    (fun c => { c with args := ["-y", "@modelcontextprotocol/server-filesystem"] ++ dirs })

/-- The dict literal `{"command": ..., "args": ..., "env": ...}` built for
each enabled server (lines 130-134). -/
def toSubprocessConfig (c : MCPServerConfig) : SubprocessConfig :=
  { command := c.command, args := c.args, env := c.env }

/-- The `for name, server_config in enabled_servers.items(): config["mcpServers"][name] = ...`
loop of `create_client_from_selection` (lines 129-134). -/
def mkMcpServers (l : SDict) : List (String × SubprocessConfig) :=
  l.foldl (fun acc p => dictInsert acc p.1 (toSubprocessConfig p.2)) []

/-- Embeds `create_client_from_selection` (lines 118-136): when no server is
enabled, first enable the filesystem default; `none` in the first component
models the `KeyError` python would raise if `"filesystem"` were absent from
the registry at that point.  The second component is the registry state
after the call. -/
def create_client_from_selection (d : SDict) : Option ClientConfig × SDict :=
  let enabled := get_enabled_servers d
  if enabled.isEmpty then
    let d' := (enable_server d "filesystem").2
    match dictLookup d' "filesystem" with
    | none => (none, d')
    | some fs => (some ⟨mkMcpServers [("filesystem", fs)]⟩, d')
  else (some ⟨mkMcpServers enabled⟩, d)

/-- The state-changing operations of `MCPServerManager`, for stating
invariants over arbitrary call sequences. -/
inductive ManagerOp where
  | enable (n : String)
  | disable (n : String)
  | toggle (n : String)
  | setSelections (sel : List (String × Bool))
  | addCustom (name command : String) (args : List String)
      (env : List (String × String)) (description : String) (enabled : Bool)
  | remove (n : String)
  | updateFsDirs (dirs : List String)
  | createClient

/-- Effect of one manager operation on the `self.servers` registry. -/
def applyOp (d : SDict) (op : ManagerOp) : SDict :=
  match op with
  | .enable n => (enable_server d n).2
  | .disable n => (disable_server d n).2
  | .toggle n => (toggle_server d n).2
  | .setSelections sel => set_server_selections d sel
  | .addCustom name command args env description enabled =>
      (add_custom_server d name command args env description enabled).2
  | .remove n => (remove_server d n).2
  | .updateFsDirs dirs => update_filesystem_directories d dirs
  | .createClient => (create_client_from_selection d).2

end Connectors

open PasswordServer Connectors

/-- C4: the symmetric key is locally persisted and stable.  When the key
file exists, `get_or_create_key` returns its contents and leaves the file
unchanged; after any first call, every later call (under arbitrary fresh-key
oracles) returns the same key as the first and never changes the key-file
state again. -/
theorem c4_key_persisted_and_stable :
    (∀ (kf : Option Key) (k fresh : Key),
      kf = some k → get_or_create_key kf fresh = (k, some k)) ∧
    (∀ (kf : Option Key) (fresh fresh' : Key),
      get_or_create_key (get_or_create_key kf fresh).2 fresh' =
        ((get_or_create_key kf fresh).1, (get_or_create_key kf fresh).2)) ∧
    (∀ (kf : Option Key) (fresh : Key) (l : List Key),
      l.foldl (fun s f => (get_or_create_key s f).2) (get_or_create_key kf fresh).2 =
        (get_or_create_key kf fresh).2) := by
  refine ⟨?_, ?_, ?_⟩
  · rintro kf k fresh rfl
    rfl
  · intro kf fresh fresh'
    cases kf <;> rfl
  · intro kf fresh l
    have hfix : ∀ (k : Key) (l : List Key),
        l.foldl (fun s f => (get_or_create_key s f).2) (some k) = some k := by
      intro k l
      induction l with
      | nil => rfl
      | cons hd t ih => simpa [get_or_create_key] using ih
    cases kf <;> exact hfix _ l

/-- C4 witness: with an existing key file holding key `5`, the call returns
`5` and leaves the file untouched. -/
theorem c4_key_persisted_and_stable_witness :
    get_or_create_key (some 5) 7 = (5, some 5) :=
  c4_key_persisted_and_stable.1 (some 5) 5 7 rfl

/-- C2: `save_password` maps the given service to the freshly built entry
and leaves every other key of the loaded store unchanged; saving over an
existing service replaces its entry in place, so key uniqueness of the
store is preserved. -/
theorem c2_store_keyed_by_service (st : ServerState) (fresh : Key)
    (now service username password : String) (url notes : Option String) :
    ∃ pw' : Store,
      ((save_password_tool st fresh now service username password url notes).2).storage
        = some pw' ∧
      dictLookup pw' service = some
        { username := username
          encrypted_password := fernetEncrypt (get_or_create_key st.keyFile fresh).1 password
          url := url.getD ""
          notes := notes.getD ""
          created_at := now
          updated_at := now } ∧
      (∀ s', s' ≠ service →
        dictLookup pw' s' = dictLookup (load_passwords st.storage) s') ∧
      (((load_passwords st.storage).map Prod.fst).Nodup → (pw'.map Prod.fst).Nodup) := by
  refine ⟨_, rfl, ?_, ?_, ?_⟩
  · exact dictLookup_dictInsert_self _ _ _
  · intro s' h
    exact dictLookup_dictInsert_ne _ _ _ _ h
  · intro h
    exact nodup_keys_dictInsert _ _ _ h

/-- C2 witness: saving service "gmail" over a one-entry store holding
"github" leaves the "github" entry alone and keeps the keys unique. -/
theorem c2_store_keyed_by_service_witness :
    ∃ pw' : Store,
      ((save_password_tool
          { keyFile := some 3
            storage := some [("github",
              { username := "u0", encrypted_password := ⟨3, "old"⟩, url := "", notes := ""
                created_at := "t0", updated_at := "t0" })] }
          9 "t1" "gmail" "alice" "pw1" none none).2).storage = some pw' ∧
      dictLookup pw' "gmail" = some
        { username := "alice", encrypted_password := fernetEncrypt 3 "pw1", url := ""
          notes := "", created_at := "t1", updated_at := "t1" } ∧
      dictLookup pw' "github" =
        some { username := "u0", encrypted_password := ⟨3, "old"⟩, url := "", notes := ""
               created_at := "t0", updated_at := "t0" } ∧
      (pw'.map Prod.fst).Nodup := by
  obtain ⟨pw', h1, h2, h3, h4⟩ := c2_store_keyed_by_service
    { keyFile := some 3
      storage := some [("github",
        { username := "u0", encrypted_password := ⟨3, "old"⟩, url := "", notes := ""
          created_at := "t0", updated_at := "t0" })] }
    9 "t1" "gmail" "alice" "pw1" none none
  refine ⟨pw', h1, h2, ?_, h4 (by decide)⟩
  rw [h3 "github" (by decide)]
  rfl

/-- C3: the entry written by `save_password` stores username, url and notes
verbatim (url and notes defaulting to `""` when omitted) and stores the
password only in encrypted form, as the Fernet encryption of the supplied
password under the persisted key. -/
theorem c3_only_password_field_encrypted (st : ServerState) (fresh : Key)
    (now service username password : String) (url notes : Option String) :
    ∃ (pw' : Store) (entry : PasswordEntry),
      ((save_password_tool st fresh now service username password url notes).2).storage
        = some pw' ∧
      dictLookup pw' service = some entry ∧
      entry.username = username ∧
      entry.url = url.getD "" ∧
      entry.notes = notes.getD "" ∧
      entry.encrypted_password =
        fernetEncrypt (get_or_create_key st.keyFile fresh).1 password ∧
      entry.created_at = now ∧
      entry.updated_at = now := by
  exact ⟨_, _, rfl, dictLookup_dictInsert_self _ _ _, rfl, rfl, rfl, rfl, rfl, rfl⟩

/-- C7: `delete_password` on a stored service writes back the old store
with exactly that service's binding removed: lookups of the deleted service
now fail and every other service's entry is untouched. -/
theorem c7_delete_removes_exactly_one (st : ServerState) (service : String)
    (entry : PasswordEntry)
    (hnd : ((load_passwords st.storage).map Prod.fst).Nodup)
    (hmem : dictLookup (load_passwords st.storage) service = some entry) :
    ((delete_password_tool st service).2).storage
      = some (dictPop (load_passwords st.storage) service) ∧
    dictLookup (dictPop (load_passwords st.storage) service) service = none ∧
    ∀ s', s' ≠ service →
      dictLookup (dictPop (load_passwords st.storage) service) s'
        = dictLookup (load_passwords st.storage) s' := by
  refine ⟨?_, dictLookup_dictPop_self _ _ hnd, fun s' h => dictLookup_dictPop_ne _ _ _ h⟩
  simp [delete_password_tool, hmem]

/-- C7 witness: deleting "gmail" from a two-entry store drops exactly the
"gmail" binding and keeps "github". -/
theorem c7_delete_removes_exactly_one_witness :
    ((delete_password_tool
        { keyFile := some 3
          storage := some
            [("gmail", { username := "a", encrypted_password := ⟨3, "p"⟩, url := "", notes := ""
                         created_at := "t", updated_at := "t" }),
             ("github", { username := "b", encrypted_password := ⟨3, "q"⟩, url := "", notes := ""
                          created_at := "t", updated_at := "t" })] }
        "gmail").2).storage
      = some [("github", { username := "b", encrypted_password := ⟨3, "q"⟩, url := "", notes := ""
                           created_at := "t", updated_at := "t" })] ∧
    dictLookup
      [("github", ({ username := "b", encrypted_password := ⟨3, "q"⟩, url := "", notes := ""
                     created_at := "t", updated_at := "t" } : PasswordEntry))] "gmail" = none := by
  obtain ⟨h1, h2, -⟩ := c7_delete_removes_exactly_one
    { keyFile := some 3
      storage := some
        [("gmail", { username := "a", encrypted_password := ⟨3, "p"⟩, url := "", notes := ""
                     created_at := "t", updated_at := "t" }),
         ("github", { username := "b", encrypted_password := ⟨3, "q"⟩, url := "", notes := ""
                      created_at := "t", updated_at := "t" })] }
    "gmail"
    { username := "a", encrypted_password := ⟨3, "p"⟩, url := "", notes := ""
      created_at := "t", updated_at := "t" }
    (by decide) (by decide)
  constructor
  · exact h1
  · exact h2

/-- C10: `update_password` with empty strings supplied for all four optional
fields leaves the stored username and encrypted password unchanged (empty
username/password are falsy and skipped) but overwrites url and notes with
the empty string (their check is key-presence only). -/
theorem c10_update_empty_string_asymmetry (st : ServerState) (fresh : Key)
    (now service : String) (entry0 : PasswordEntry)
    (hmem : dictLookup (load_passwords st.storage) service = some entry0) :
    ∃ pw',
      ((update_password_tool st fresh now service
          (some "") (some "") (some "") (some "")).2).storage = some pw' ∧
      dictLookup pw' service
        = some { entry0 with url := "", notes := "", updated_at := now } := by
  have h : ((update_password_tool st fresh now service
      (some "") (some "") (some "") (some "")).2).storage
      = some (dictInsert (load_passwords st.storage) service
          { entry0 with url := "", notes := "", updated_at := now }) := by
    simp [update_password_tool, hmem, truthy]
  exact ⟨_, h, dictLookup_dictInsert_self _ _ _⟩

/-- C10 witness: updating "gmail" with empty strings keeps username "alice"
and the old ciphertext, but blanks url and notes. -/
theorem c10_update_empty_string_asymmetry_witness :
    ∃ pw',
      ((update_password_tool
          { keyFile := some 3
            storage := some [("gmail",
              { username := "alice", encrypted_password := ⟨3, "p"⟩, url := "https://g"
                notes := "n", created_at := "t0", updated_at := "t0" })] }
          9 "t1" "gmail" (some "") (some "") (some "") (some "")).2).storage = some pw' ∧
      dictLookup pw' "gmail" = some
        { username := "alice", encrypted_password := ⟨3, "p"⟩, url := "", notes := ""
          created_at := "t0", updated_at := "t1" } :=
  c10_update_empty_string_asymmetry
    { keyFile := some 3
      storage := some [("gmail",
        { username := "alice", encrypted_password := ⟨3, "p"⟩, url := "https://g"
          notes := "n", created_at := "t0", updated_at := "t0" })] }
    9 "t1" "gmail"
    { username := "alice", encrypted_password := ⟨3, "p"⟩, url := "https://g"
      notes := "n", created_at := "t0", updated_at := "t0" }
    (by decide)

theorem dictLookup_foldl_dictInsert {α β : Type} (g : α → β) (l : List (String × α)) :
    ∀ (acc : List (String × β)) (n : String), (l.map Prod.fst).Nodup →
      dictLookup (l.foldl (fun acc p => dictInsert acc p.1 (g p.2)) acc) n =
        ((dictLookup l n).map g).orElse (fun _ => dictLookup acc n) := by
  induction l with
  | nil => intro acc n _; simp [dictLookup]
  | cons hd t ih =>
    intro acc n hnd
    obtain ⟨k, v⟩ := hd
    simp only [List.map_cons, List.nodup_cons] at hnd
    simp only [List.foldl_cons]
    rw [ih _ n hnd.2]
    by_cases h : k = n
    · subst h
      rw [dictLookup_eq_none_of_not_mem_keys t k hnd.1]
      simp [dictLookup, dictLookup_dictInsert_self]
    · simp [dictLookup, h, dictLookup_dictInsert_ne _ _ _ _ (Ne.symm h)]

theorem nodup_keys_foldl_dictInsert {α β : Type} (g : α → β) (l : List (String × α)) :
    ∀ acc : List (String × β), (acc.map Prod.fst).Nodup →
      (((l.foldl (fun acc p => dictInsert acc p.1 (g p.2)) acc)).map Prod.fst).Nodup := by
  induction l with
  | nil => intro acc h; simpa using h
  | cons hd t ih =>
    intro acc h
    simpa using ih _ (nodup_keys_dictInsert acc hd.1 (g hd.2) h)

theorem length_le_length_dictInsert {α : Type} (d : List (String × α)) (k : String) (v : α) :
    d.length ≤ (dictInsert d k v).length := by
  induction d with
  | nil => simp [dictInsert]
  | cons hd t ih =>
    obtain ⟨k₀, v₀⟩ := hd
    by_cases h : k₀ = k
    · simp [dictInsert, h]
    · simp only [dictInsert, if_neg h, List.length_cons]
      omega

theorem length_le_length_foldl_dictInsert {α β : Type} (g : α → β) (l : List (String × α)) :
    ∀ acc : List (String × β),
      acc.length ≤ ((l.foldl (fun acc p => dictInsert acc p.1 (g p.2)) acc)).length := by
  induction l with
  | nil => intro acc; simp
  | cons hd t ih =>
    intro acc
    calc acc.length ≤ (dictInsert acc hd.1 (g hd.2)).length :=
          length_le_length_dictInsert acc hd.1 (g hd.2)
      _ ≤ _ := by simpa using ih (dictInsert acc hd.1 (g hd.2))

theorem mkMcpServers_ne_nil (l : SDict) (h : l ≠ []) : mkMcpServers l ≠ [] := by
  match l, h with
  | (k, v) :: t, _ =>
    have h1 : (1 : Nat) ≤ (mkMcpServers ((k, v) :: t)).length := by
      have := length_le_length_foldl_dictInsert toSubprocessConfig t
        (dictInsert [] k (toSubprocessConfig v))
      simpa [mkMcpServers, dictInsert] using this
    intro hnil
    rw [hnil] at h1
    simp at h1

theorem mem_keys_of_mem_keys_filter {α : Type} (p : String × α → Bool)
    (d : List (String × α)) (k : String) (h : k ∈ (d.filter p).map Prod.fst) :
    k ∈ d.map Prod.fst :=
  (List.Sublist.map Prod.fst (List.filter_sublist d)).mem h

theorem dictLookup_get_enabled_servers (d : SDict) (n : String)
    (hnd : (d.map Prod.fst).Nodup) :
    dictLookup (get_enabled_servers d) n =
      (dictLookup d n).bind (fun c => if c.enabled then some c else none) := by
  induction d with
  | nil => rfl
  | cons hd t ih =>
    obtain ⟨k, v⟩ := hd
    simp only [List.map_cons, List.nodup_cons] at hnd
    by_cases h : k = n
    · subst h
      by_cases he : v.enabled
      · simp [get_enabled_servers, dictLookup, he]
      · have hnone : dictLookup (get_enabled_servers t) k = none := by
          apply dictLookup_eq_none_of_not_mem_keys
          intro hmem
          exact hnd.1 (mem_keys_of_mem_keys_filter _ t k hmem)
        simp only [get_enabled_servers] at hnone ⊢
        simp [List.filter_cons, he, dictLookup, hnone]
    · by_cases he : v.enabled
      · simpa [get_enabled_servers, List.filter_cons, he, dictLookup, h] using ih hnd.2
      · simpa [get_enabled_servers, List.filter_cons, he, dictLookup, h] using ih hnd.2

/-- C5: when at least one server is enabled, `create_client_from_selection`
builds a subprocess configuration whose `mcpServers` mapping has exactly the
enabled servers as keys (uniquely), each carrying that server's stored
command, args and env unchanged, and no entry for any disabled or unknown
server; the registry itself is left unchanged. -/
theorem c5_subprocess_config_passthrough (d : SDict)
    (hnd : (d.map Prod.fst).Nodup) (hne : get_enabled_servers d ≠ []) :
    ∃ cfg : ClientConfig,
      create_client_from_selection d = (some cfg, d) ∧
      (∀ n, dictLookup cfg.mcpServers n =
        (dictLookup d n).bind
          (fun c => if c.enabled then some (toSubprocessConfig c) else none)) ∧
      (cfg.mcpServers.map Prod.fst).Nodup := by
  have hnotempty : (get_enabled_servers d).isEmpty = false := by
    cases hgg : get_enabled_servers d with
    | nil => exact absurd hgg hne
    | cons a t => rfl
  have hndE : ((get_enabled_servers d).map Prod.fst).Nodup :=
    (List.Sublist.map Prod.fst (List.filter_sublist d)).nodup hnd
  refine ⟨⟨mkMcpServers (get_enabled_servers d)⟩, ?_, ?_, ?_⟩
  · simp [create_client_from_selection, hnotempty]
  · intro n
    have h1 := dictLookup_foldl_dictInsert toSubprocessConfig (get_enabled_servers d) [] n hndE
    have h2 := dictLookup_get_enabled_servers d n hnd
    simp only [mkMcpServers]
    rw [h1, h2]
    cases dictLookup d n with
    | none => rfl
    | some c =>
      by_cases he : c.enabled <;> simp [he, dictLookup, Option.orElse]
  · exact nodup_keys_foldl_dictInsert toSubprocessConfig (get_enabled_servers d) [] (by simp)

/-- C5 witness: a registry with an enabled filesystem server and a disabled
custom server yields a config containing exactly the filesystem entry with
its command, args and env copied through. -/
theorem c5_subprocess_config_passthrough_witness :
    ∃ cfg : ClientConfig,
      create_client_from_selection
        (initServers "/work" ++
          [("pw", { name := "pw", command := "python", args := ["Custom/password_server.py"]
                    env := [], description := "", enabled := false })])
        = (some cfg,
           initServers "/work" ++
             [("pw", { name := "pw", command := "python", args := ["Custom/password_server.py"]
                       env := [], description := "", enabled := false })]) ∧
      dictLookup cfg.mcpServers "filesystem" = some
        { command := "npx"
          args := ["-y", "@modelcontextprotocol/server-filesystem", "/work"]
          env := [] } ∧
      dictLookup cfg.mcpServers "pw" = none := by
  obtain ⟨cfg, h1, h2, -⟩ := c5_subprocess_config_passthrough
    (initServers "/work" ++
      [("pw", { name := "pw", command := "python", args := ["Custom/password_server.py"]
                env := [], description := "", enabled := false })])
    (by decide) (by decide)
  refine ⟨cfg, h1, ?_, ?_⟩
  · rw [h2 "filesystem"]
    rfl
  · rw [h2 "pw"]
    rfl

theorem isSome_dictLookup_dictModify {α : Type} (d : List (String × α)) (k k' : String)
    (f : α → α) :
    (dictLookup (dictModify d k f) k').isSome = (dictLookup d k').isSome := by
  rw [dictLookup_dictModify]
  by_cases h : k' = k <;> simp [h]

theorem isSome_dictLookup_append_left {α : Type} (d e : List (String × α)) (k : String)
    (h : (dictLookup d k).isSome = true) : (dictLookup (d ++ e) k).isSome = true := by
  rw [dictLookup_append]
  cases hd : dictLookup d k with
  | none => rw [hd] at h; simp at h
  | some v => simp [hd, Option.orElse]

theorem enable_server_preserves_isSome (d : SDict) (n k : String)
    (h : (dictLookup d k).isSome = true) :
    (dictLookup (enable_server d n).2 k).isSome = true := by
  by_cases hn : (dictLookup d n).isSome = true
  · simpa [enable_server, hn, isSome_dictLookup_dictModify] using h
  · simpa [enable_server, hn] using h

theorem set_server_selections_preserves_isSome (sel : List (String × Bool)) :
    ∀ (d : SDict) (k : String), (dictLookup d k).isSome = true →
      (dictLookup (set_server_selections d sel) k).isSome = true := by
  induction sel with
  | nil => intro d k h; simpa [set_server_selections] using h
  | cons hd t ih =>
    intro d k h
    simp only [set_server_selections, List.foldl_cons]
    by_cases hn : (dictLookup d hd.1).isSome = true
    · exact ih _ k (by simpa [hn, isSome_dictLookup_dictModify] using h)
    · exact ih _ k (by simpa [hn] using h)

theorem create_client_snd (d : SDict) :
    (create_client_from_selection d).2 =
      if (get_enabled_servers d).isEmpty then (enable_server d "filesystem").2 else d := by
  by_cases h : (get_enabled_servers d).isEmpty
  · simp only [create_client_from_selection, h, if_pos]
    cases dictLookup (enable_server d "filesystem").2 "filesystem" <;> rfl
  · simp [create_client_from_selection, h]

theorem applyOp_preserves_filesystem (d : SDict) (op : ManagerOp)
    (h : (dictLookup d "filesystem").isSome = true) :
    (dictLookup (applyOp d op) "filesystem").isSome = true := by
  cases op with
  | enable n => exact enable_server_preserves_isSome d n _ h
  | disable n =>
    by_cases hn : (dictLookup d n).isSome = true
    · simpa [applyOp, disable_server, hn, isSome_dictLookup_dictModify] using h
    · simpa [applyOp, disable_server, hn] using h
  | toggle n =>
    cases hn : dictLookup d n with
    | none => simpa [applyOp, toggle_server, hn] using h
    | some c => simpa [applyOp, toggle_server, hn, isSome_dictLookup_dictModify] using h
  | setSelections sel => exact set_server_selections_preserves_isSome sel d _ h
  | addCustom name command args env description enabled =>
    by_cases hn : (dictLookup d name).isSome = true
    · simpa [applyOp, add_custom_server, hn] using h
    · simp only [applyOp, add_custom_server, hn, if_neg, Bool.false_eq_true, if_false]
      exact isSome_dictLookup_append_left d _ _ h
  | remove n =>
    by_cases hfs : n = "filesystem"
    · simpa [applyOp, remove_server, hfs] using h
    · by_cases hn : (dictLookup d n).isSome = true
      · have hpop : (remove_server d n).2 = dictPop d n := by
          simp [remove_server, hfs, hn]
        rw [applyOp, hpop, dictLookup_dictPop_ne d n "filesystem" (fun e => hfs e.symm)]
        exact h
      · simpa [applyOp, remove_server, hfs, hn] using h
  | updateFsDirs dirs =>
    simpa [applyOp, update_filesystem_directories, isSome_dictLookup_dictModify] using h
  | createClient =>
    rw [applyOp, create_client_snd]
    by_cases he : (get_enabled_servers d).isEmpty
    · simp only [he, if_pos]
      exact enable_server_preserves_isSome d "filesystem" _ h
    · simpa [he] using h

/-- C8: the "filesystem" server is permanent and client creation never
yields an empty server set.  The registry contains the key "filesystem"
after construction and after every sequence of manager operations;
`remove_server("filesystem")` returns `False` and leaves the registry
unchanged; and whenever the registry contains "filesystem" (which is
invariant), `create_client_from_selection` succeeds with at least one
configured server — enabling "filesystem" first when nothing is enabled. -/
theorem c8_filesystem_permanent_and_nonempty_selection :
    (∀ current_dir : String,
      (dictLookup (initServers current_dir) "filesystem").isSome = true) ∧
    (∀ (current_dir : String) (ops : List ManagerOp),
      (dictLookup (ops.foldl applyOp (initServers current_dir)) "filesystem").isSome
        = true) ∧
    (∀ d : SDict, remove_server d "filesystem" = (false, d)) ∧
    (∀ d : SDict, (dictLookup d "filesystem").isSome = true →
      ∃ (cfg : ClientConfig) (d' : SDict),
        create_client_from_selection d = (some cfg, d') ∧ cfg.mcpServers ≠ []) := by
  refine ⟨?_, ?_, ?_, ?_⟩
  · intro current_dir
    rfl
  · intro current_dir ops
    have hgen : ∀ (ops : List ManagerOp) (d : SDict),
        (dictLookup d "filesystem").isSome = true →
        (dictLookup (ops.foldl applyOp d) "filesystem").isSome = true := by
      intro ops
      induction ops with
      | nil => intro d h; simpa using h
      | cons hd t ih =>
        intro d h
        exact ih _ (applyOp_preserves_filesystem d hd h)
    exact hgen ops (initServers current_dir) rfl
  · intro d
    rfl
  · intro d h
    by_cases he : (get_enabled_servers d).isEmpty
    · obtain ⟨fs, hfs⟩ := Option.isSome_iff_exists.mp h
      have hmod : dictLookup (enable_server d "filesystem").2 "filesystem"
          = some { fs with enabled := true } := by
        simp [enable_server, h, dictLookup_dictModify, hfs]
      refine ⟨⟨mkMcpServers [("filesystem", { fs with enabled := true })]⟩,
        (enable_server d "filesystem").2, ?_, ?_⟩
      · simp [create_client_from_selection, he, hmod]
      · exact mkMcpServers_ne_nil _ (by simp)
    · refine ⟨⟨mkMcpServers (get_enabled_servers d)⟩, d, ?_, ?_⟩
      · simp [create_client_from_selection, he]
      · exact mkMcpServers_ne_nil _ (by simpa using he)

/-- C8 witness: in a freshly constructed registry, client creation succeeds
with a non-empty server set. -/
theorem c8_filesystem_permanent_witness :
    ∃ (cfg : ClientConfig) (d' : SDict),
      create_client_from_selection (initServers "/work") = (some cfg, d') ∧
      cfg.mcpServers ≠ [] :=
  c8_filesystem_permanent_and_nonempty_selection.2.2.2 (initServers "/work") rfl

/-- Holds when `t` occurs as a contiguous substring of `s`. -/
def strContains (s t : String) : Prop :=
  ∃ a b : List Char, s.data = a ++ t.data ++ b

theorem strContains_append_right (s t u : String) (h : strContains s u) :
    strContains (s ++ t) u := by
  obtain ⟨a, b, hab⟩ := h
  exact ⟨a, b ++ t.data, by simp [String.data_append, hab]⟩

theorem strContains_append_self (s t : String) : strContains (s ++ t) t :=
  ⟨s.data, [], by simp [String.data_append]⟩

theorem string_ne_of_data_getElem? (s t : String) (i : Nat)
    (h : s.data[i]? ≠ t.data[i]?) : s ≠ t := fun e => h (by rw [e])

theorem data_getElem?_prefix_trans (p s : String) (i : Nat) (c : Char)
    (h : p.data[i]? = some c) : (p ++ s).data[i]? = some c := by
  have hlen : i < p.data.length := by
    by_contra hlt
    push_neg at hlt
    rw [List.getElem?_eq_none hlt] at h
    exact Option.noConfusion h
  rw [String.data_append, List.getElem?_append_left hlen]
  exact h

theorem get_or_create_key_snd (kf : Option Key) (fresh : Key) :
    (get_or_create_key kf fresh).2 = some (get_or_create_key kf fresh).1 := by
  cases kf <;> rfl

theorem get_or_create_key_some (k fresh : Key) :
    get_or_create_key (some k) fresh = (k, some k) := rfl

theorem password_retrieved_msg_contains_password (service : String)
    (entry : PasswordEntry) (pw : String) :
    strContains (password_retrieved_msg service entry pw) pw := by
  unfold password_retrieved_msg
  apply strContains_append_right
  apply strContains_append_right
  apply strContains_append_right
  apply strContains_append_right
  apply strContains_append_right
  apply strContains_append_right
  apply strContains_append_right
  exact strContains_append_self _ _

theorem password_retrieved_msg_contains_username (service : String)
    (entry : PasswordEntry) (pw : String) :
    strContains (password_retrieved_msg service entry pw) entry.username := by
  unfold password_retrieved_msg
  apply strContains_append_right
  apply strContains_append_right
  apply strContains_append_right
  apply strContains_append_right
  apply strContains_append_right
  apply strContains_append_right
  apply strContains_append_right
  apply strContains_append_right
  apply strContains_append_right
  apply strContains_append_right
  exact strContains_append_self _ _

/-- C1: encrypt/store/retrieve round trip.  With an existing key file,
`decrypt_password` inverts `encrypt_password` exactly (and touches nothing);
consequently, for any prior state, a `get_password` call made right after a
successful `save_password` for the same service returns a message containing
the original password and the supplied username. -/
theorem c1_encrypt_store_retrieve_round_trip :
    (∀ (k fresh : Key) (p : String),
      decrypt_password (some k) fresh (encrypt_password (some k) fresh p).1
        = (some p, some k)) ∧
    (∀ (st : ServerState) (fresh fresh' : Key)
        (now service username password : String) (url notes : Option String),
      strContains
        ((get_password_tool
            (save_password_tool st fresh now service username password url notes).2
            fresh' service).1)
        password ∧
      strContains
        ((get_password_tool
            (save_password_tool st fresh now service username password url notes).2
            fresh' service).1)
        username) := by
  constructor
  · intro k fresh p
    simp [decrypt_password, encrypt_password, get_or_create_key, fernetDecrypt, fernetEncrypt]
  · intro st fresh fresh' now service username password url notes
    have hsave : (save_password_tool st fresh now service username password url notes).2
        = { keyFile := (get_or_create_key st.keyFile fresh).2
            storage := some (dictInsert (load_passwords st.storage) service
              { username := username
                encrypted_password :=
                  fernetEncrypt (get_or_create_key st.keyFile fresh).1 password
                url := url.getD ""
                notes := notes.getD ""
                created_at := now
                updated_at := now }) } := rfl
    have hmsg : (get_password_tool
        (save_password_tool st fresh now service username password url notes).2
        fresh' service).1
        = password_retrieved_msg service
            { username := username
              encrypted_password :=
                fernetEncrypt (get_or_create_key st.keyFile fresh).1 password
              url := url.getD ""
              notes := notes.getD ""
              created_at := now
              updated_at := now }
            password := by
      rw [hsave, get_or_create_key_snd]
      simp [get_password_tool, load_passwords, dictLookup_dictInsert_self,
        decrypt_password, get_or_create_key_some, fernetDecrypt, fernetEncrypt]
    rw [hmsg]
    exact ⟨password_retrieved_msg_contains_password _ _ _,
      password_retrieved_msg_contains_username _
        { username := username
          encrypted_password := fernetEncrypt (get_or_create_key st.keyFile fresh).1 password
          url := url.getD ""
          notes := notes.getD ""
          created_at := now
          updated_at := now } _⟩

/-- C6: `get_password` fails with the "No password found" message exactly
when the requested service is not a key of the loaded store, and in every
case it leaves the storage file untouched. -/
theorem c6_get_password_miss_iff_unknown_service (st : ServerState) (fresh : Key)
    (service : String) :
    ((get_password_tool st fresh service).2).storage = st.storage ∧
    ((get_password_tool st fresh service).1
        = no_password_found_msg service (load_passwords st.storage)
      ↔ dictLookup (load_passwords st.storage) service = none) := by
  cases hlook : dictLookup (load_passwords st.storage) service with
  | none =>
    constructor
    · simp [get_password_tool, hlook]
    · simp [get_password_tool, hlook]
  | some entry =>
    have hno0 : (no_password_found_msg service (load_passwords st.storage)).data[0]?
        = some '❌' := by
      unfold no_password_found_msg
      apply data_getElem?_prefix_trans
      apply data_getElem?_prefix_trans
      apply data_getElem?_prefix_trans
      rfl
    have hno2 : (no_password_found_msg service (load_passwords st.storage)).data[2]?
        = some 'N' := by
      unfold no_password_found_msg
      apply data_getElem?_prefix_trans
      apply data_getElem?_prefix_trans
      apply data_getElem?_prefix_trans
      rfl
    constructor
    · cases hdec : (decrypt_password st.keyFile fresh entry.encrypted_password).1 with
      | none => simp [get_password_tool, hlook, hdec]
      | some pw => simp [get_password_tool, hlook, hdec]
    · rw [iff_false_intro (by simp : ¬ some entry = none)]
      simp only [iff_false]
      cases hdec : (decrypt_password st.keyFile fresh entry.encrypted_password).1 with
      | none =>
        have hl : (get_password_tool st fresh service).1 = decrypt_failed_msg service := by
          simp [get_password_tool, hlook, hdec]
        rw [hl]
        apply string_ne_of_data_getElem? _ _ 2
        rw [hno2]
        have hfail : (decrypt_failed_msg service).data[2]? = some 'F' := by
          unfold decrypt_failed_msg
          apply data_getElem?_prefix_trans
          apply data_getElem?_prefix_trans
          rfl
        rw [hfail]
        decide
      | some pw =>
        have hl : (get_password_tool st fresh service).1
            = password_retrieved_msg service entry pw := by
          simp [get_password_tool, hlook, hdec]
        rw [hl]
        apply string_ne_of_data_getElem? _ _ 0
        rw [hno0]
        have hret : (password_retrieved_msg service entry pw).data[0]? = some '🔓' := by
          unfold password_retrieved_msg
          repeat apply data_getElem?_prefix_trans
          rfl
        rw [hret]
        decide

theorem secretsChoice_mem (s : String) (r : Nat) (h : s.data ≠ []) :
    secretsChoice s r ∈ s.data := by
  unfold secretsChoice
  have hlen : 0 < s.data.length := List.length_pos.mpr h
  have hmod : r % s.data.length < s.data.length := Nat.mod_lt _ hlen
  rw [List.getD_eq_getElem s.data 'a' hmod]
  exact List.getElem_mem hmod

theorem cons_getD_eraseIdx_perm (l : List Char) (i : Nat) (h : i < l.length) :
    (l.getD i 'a' :: l.eraseIdx i).Perm l := by
  induction l generalizing i with
  | nil => simp at h
  | cons hd t ih =>
    cases i with
    | zero => simp [List.eraseIdx]
    | succ j =>
      have hj : j < t.length := by simpa using h
      show (t.getD j 'a' :: hd :: t.eraseIdx j).Perm (hd :: t)
      exact (List.Perm.swap hd (t.getD j 'a') (t.eraseIdx j)).trans ((ih j hj).cons hd)

theorem drawAllFuel_perm (r : Nat → Nat) :
    ∀ (fuel step : Nat) (l : List Char), l.length = fuel →
      (drawAllFuel r fuel step l).Perm l := by
  intro fuel
  induction fuel with
  | zero =>
    intro step l hl
    rw [List.length_eq_zero.mp hl]
    rfl
  | succ n ih =>
    intro step l hl
    match l, hl with
    | hd :: t, hl =>
      have hpos : 0 < (hd :: t).length := by simp
      have hi : r step % (hd :: t).length < (hd :: t).length := Nat.mod_lt _ hpos
      have hlen' : ((hd :: t).eraseIdx (r step % (hd :: t).length)).length = n := by
        rw [List.length_eraseIdx]
        simp only [hi, if_pos]
        omega
      show ((hd :: t).getD (r step % (hd :: t).length) 'a' ::
          drawAllFuel r n (step + 1)
            ((hd :: t).eraseIdx (r step % (hd :: t).length))).Perm (hd :: t)
      exact ((ih (step + 1) _ hlen').cons _).trans (cons_getD_eraseIdx_perm _ _ hi)

theorem shuffleModel_perm (r : Nat → Nat) (l : List Char) :
    (shuffleModel r l).Perm l :=
  drawAllFuel_perm r l.length 0 l rfl

/-- C9: with all four character classes enabled and a requested length of at
least 4, every random outcome yields a password of exactly the requested
length, drawn entirely from the union pool, and containing at least one
lowercase letter, one uppercase letter, one digit and one symbol. -/
theorem c9_generate_password_length_and_coverage (length : Nat) (o : GenOracle)
    (h4 : 4 ≤ length) :
    ∃ pw : String,
      generatePassword length true true true true o = some pw ∧
      pw.length = length ∧
      (∀ c ∈ pw.data, c ∈ (buildChars true true true true).data) ∧
      (∃ c ∈ pw.data, c ∈ ascii_lowercase.data) ∧
      (∃ c ∈ pw.data, c ∈ ascii_uppercase.data) ∧
      (∃ c ∈ pw.data, c ∈ string_digits.data) ∧
      (∃ c ∈ pw.data, c ∈ symbol_chars.data) := by
  have h0 : 0 < length := by omega
  have h1 : 1 < length := by omega
  have h2 : 2 < length := by omega
  have h3 : 3 < length := by omega
  set chars := buildChars true true true true with hchars
  set pw0 := (List.range length).map (fun j => secretsChoice chars (o.initChoice j)) with hpw0
  have hlen0 : pw0.length = length := by simp [hpw0]
  set a := secretsChoice ascii_lowercase (o.classChoice 0) with hA
  set b := secretsChoice ascii_uppercase (o.classChoice 1) with hB
  set c := secretsChoice string_digits (o.classChoice 2) with hC
  set d := secretsChoice symbol_chars (o.classChoice 3) with hD
  set L := (((pw0.set 0 a).set 1 b).set 2 c).set 3 d with hL
  have hgen : generatePassword length true true true true o
      = some ⟨shuffleModel o.shuffleChoice L⟩ := by
    unfold generatePassword
    rw [if_neg (by decide : ¬ buildChars true true true true = "")]
    rw [if_pos (by omega : 2 ≤ length)]
    simp only [ensureStep, true_and, if_pos h0]
    simp only [if_pos h1, if_pos h2, if_pos h3]
  have hlenL : L.length = length := by simp [hL, hlen0]
  have hperm : (shuffleModel o.shuffleChoice L).Perm L := shuffleModel_perm _ _
  have hmemL : ∀ x ∈ L, x ∈ chars.data := by
    have hsub_lo : ∀ x ∈ ascii_lowercase.data, x ∈ chars.data := by decide
    have hsub_up : ∀ x ∈ ascii_uppercase.data, x ∈ chars.data := by decide
    have hsub_dg : ∀ x ∈ string_digits.data, x ∈ chars.data := by decide
    have hsub_sy : ∀ x ∈ symbol_chars.data, x ∈ chars.data := by decide
    intro x hx
    rcases List.mem_or_eq_of_mem_set hx with hx | rfl
    · rcases List.mem_or_eq_of_mem_set hx with hx | rfl
      · rcases List.mem_or_eq_of_mem_set hx with hx | rfl
        · rcases List.mem_or_eq_of_mem_set hx with hx | rfl
          · rw [hpw0] at hx
            obtain ⟨j, -, rfl⟩ := List.mem_map.mp hx
            exact secretsChoice_mem chars _ (by decide)
          · exact hsub_lo _ (secretsChoice_mem _ _ (by decide))
        · exact hsub_up _ (secretsChoice_mem _ _ (by decide))
      · exact hsub_dg _ (secretsChoice_mem _ _ (by decide))
    · exact hsub_sy _ (secretsChoice_mem _ _ (by decide))
  have hmem_set_self : ∀ (l : List Char) (i : Nat) (x : Char), i < l.length → x ∈ l.set i x := by
    intro l i x hi
    have hi' : i < (l.set i x).length := by simpa using hi
    refine List.mem_iff_getElem.mpr ⟨i, hi', ?_⟩
    simp
  have hmem_a : a ∈ L := by
    have e1 : L = (((pw0.set 1 b).set 2 c).set 3 d).set 0 a := by
      rw [hL, List.set_comm a b pw0 (by omega : (0 : Nat) ≠ 1),
        List.set_comm a c _ (by omega : (0 : Nat) ≠ 2),
        List.set_comm a d _ (by omega : (0 : Nat) ≠ 3)]
    rw [e1]
    exact hmem_set_self _ 0 a (by simp [hlen0]; omega)
  have hmem_b : b ∈ L := by
    have e2 : L = (((pw0.set 0 a).set 2 c).set 3 d).set 1 b := by
      rw [hL, List.set_comm b c _ (by omega : (1 : Nat) ≠ 2),
        List.set_comm b d _ (by omega : (1 : Nat) ≠ 3)]
    rw [e2]
    exact hmem_set_self _ 1 b (by simp [hlen0]; omega)
  have hmem_c : c ∈ L := by
    have e3 : L = (((pw0.set 0 a).set 1 b).set 3 d).set 2 c := by
      rw [hL, List.set_comm c d _ (by omega : (2 : Nat) ≠ 3)]
    rw [e3]
    exact hmem_set_self _ 2 c (by simp [hlen0]; omega)
  have hmem_d : d ∈ L := by
    rw [hL]
    exact hmem_set_self _ 3 d (by simp [hlen0]; omega)
  refine ⟨⟨shuffleModel o.shuffleChoice L⟩, hgen, ?_, ?_, ?_, ?_, ?_, ?_⟩
  · show (shuffleModel o.shuffleChoice L).length = length
    rw [hperm.length_eq, hlenL]
  · intro x hx
    exact hmemL x (hperm.mem_iff.mp hx)
  · exact ⟨a, hperm.mem_iff.mpr hmem_a, secretsChoice_mem _ _ (by decide)⟩
  · exact ⟨b, hperm.mem_iff.mpr hmem_b, secretsChoice_mem _ _ (by decide)⟩
  · exact ⟨c, hperm.mem_iff.mpr hmem_c, secretsChoice_mem _ _ (by decide)⟩
  · exact ⟨d, hperm.mem_iff.mpr hmem_d, secretsChoice_mem _ _ (by decide)⟩

/-- C9 witness: at length 4 with the all-zero oracle, a password of length 4
covering all four classes is produced. -/
theorem c9_generate_password_witness :
    ∃ pw : String,
      generatePassword 4 true true true true ⟨fun _ => 0, fun _ => 0, fun _ => 0⟩ = some pw ∧
      pw.length = 4 ∧
      (∀ c ∈ pw.data, c ∈ (buildChars true true true true).data) ∧
      (∃ c ∈ pw.data, c ∈ ascii_lowercase.data) ∧
      (∃ c ∈ pw.data, c ∈ ascii_uppercase.data) ∧
      (∃ c ∈ pw.data, c ∈ string_digits.data) ∧
      (∃ c ∈ pw.data, c ∈ symbol_chars.data) :=
  c9_generate_password_length_and_coverage 4 ⟨fun _ => 0, fun _ => 0, fun _ => 0⟩
    (by omega)

end MCPDemo
